import Mathlib

/-!
Verification of the CSV import / column-mapping / rule-matching pipeline of
the ledgerleaf repository, shallowly embedded in Lean.

Modelling conventions:
* JavaScript strings are `String`, manipulated through their character list
  (`String.data`); case folding, trimming, splitting and substring search are
  defined below character-by-character, mirroring the ASCII behaviour of the
  JS string methods used by the source.
* JavaScript numbers are modelled as exact rationals (`Rat`).  `parseFloat`
  is embedded for ordinary decimal notation (optional sign, digits, fraction,
  exponent); a string with no leading numeric prefix yields `none` (JS `NaN`,
  which the source immediately replaces by `0`).  `Number.prototype.toFixed(2)`
  followed by unary `+` is modelled as rounding to the nearest multiple of
  1/100, ties towards positive infinity.
* `null`/`undefined`-able values are `Option`.
-/

/-- JS-style per-character lower casing (`String.prototype.toLowerCase`,
ASCII fragment). -/
def jsToLower (s : String) : String := String.mk (s.data.map Char.toLower)

/-- JS-style per-character upper casing (`String.prototype.toUpperCase`,
ASCII fragment). -/
def jsToUpper (s : String) : String := String.mk (s.data.map Char.toUpper)

/-- JS `String.prototype.trim`: strip leading and trailing whitespace. -/
def jsTrim (s : String) : String :=
  String.mk (((s.data.dropWhile Char.isWhitespace).reverse.dropWhile
    Char.isWhitespace).reverse)

/-- Boolean prefix test on character lists. -/
def hasPre : List Char → List Char → Bool
  | [], _ => true
  | _ :: _, [] => false
  | a :: as, b :: bs => a == b && hasPre as bs

/-- Boolean contiguous-substring test on character lists. -/
def hasSub (n : List Char) : List Char → Bool
  | [] => hasPre n []
  | b :: bs => hasPre n (b :: bs) || hasSub n bs

/-- JS `String.prototype.includes`. -/
def jsIncludes (hay pat : String) : Bool := hasSub pat.data hay.data

/-- JS `String.prototype.startsWith`. -/
def jsStartsWith (s pre : String) : Bool := hasPre pre.data s.data

/-- JS `String.prototype.endsWith`. -/
def jsEndsWith (s suf : String) : Bool := hasPre suf.data.reverse s.data.reverse

/-- JS `String.prototype.split(',')` (single-character separator, no limit). -/
def splitCommaAux (acc : List Char) : List Char → List (List Char)
  | [] => [acc.reverse]
  | c :: t => if c == ',' then acc.reverse :: splitCommaAux [] t
              else splitCommaAux (c :: acc) t

/-- JS `s.split(',')` on strings. -/
def jsSplitComma (s : String) : List String :=
  (splitCommaAux [] s.data).map String.mk

/-- JS `Array.prototype.join(',')`. -/
def jsJoinComma (row : List String) : String :=
  String.intercalate "," row

/-- Numeric value of a list of decimal digit characters. -/
def digitsVal (ds : List Char) : Nat :=
  ds.foldl (fun a c => 10 * a + (c.toNat - 48)) 0

/-- JS `parseFloat` on ordinary decimal notation: skip leading whitespace,
optional sign, integer digits, optional fraction, optional exponent, ignoring
any trailing junk.  Returns `none` when no digits are found (JS `NaN`).
Special literals (`Infinity`) are outside the model. -/
def jsParseFloat (s : String) : Option Rat :=
  let cs := s.data.dropWhile Char.isWhitespace
  let sgn : Int := match cs with | '-' :: _ => -1 | _ => 1
  let cs := match cs with | '-' :: t => t | '+' :: t => t | _ => cs
  let ip := cs.takeWhile Char.isDigit
  let rest := cs.drop ip.length
  let fp := match rest with | '.' :: t => t.takeWhile Char.isDigit | _ => []
  let rest2 := match rest with | '.' :: t => t.drop fp.length | _ => rest
  if ip.isEmpty && fp.isEmpty then none
  else
    let ex : Int := match rest2 with
      | c :: t =>
        if c == 'e' || c == 'E' then
          let esgn : Int := match t with | '-' :: _ => -1 | _ => 1
          let t2 := match t with | '-' :: u => u | '+' :: u => u | _ => t
          let ed := t2.takeWhile Char.isDigit
          if ed.isEmpty then 0 else esgn * (digitsVal ed : Int)
        else 0
      | [] => 0
    let m : Int := sgn * ((digitsVal ip * 10 ^ fp.length + digitsVal fp : Nat) : Int)
    let e : Int := ex - (fp.length : Int)
    some (if 0 ≤ e then Rat.divInt (m * 10 ^ e.toNat) 1
          else Rat.divInt m (10 ^ (-e).toNat))

/-- JS `Math.abs` on our rational model of numbers. -/
def jsAbs (q : Rat) : Rat := if q < 0 then -q else q

/-- `+x.toFixed(2)`: the nearest multiple of 1/100, ties towards +∞.
`Int.fdiv (200 * q.num + q.den) (2 * q.den)` computes `⌊100 * q + 1/2⌋`. -/
def jsToFixed2 (q : Rat) : Rat :=
  Rat.divInt (Int.fdiv (200 * q.num + q.den) (2 * q.den)) 100

/-! ## Column mapper (`src/lib/column-mapper.ts`, both variants, and the
inlined copy in `src/app/api/import/transactions/route.ts`) -/

/-- `Mapping`: canonical field name → literal header string. -/
structure Mapping where
  bankKey : String
  date : String
  amount : String
  type : String
  description : String
  merchant : String
deriving DecidableEq, Repr

/-- Transaction direction; `normalizeRow` returns `"INCOME" | "EXPENSE"`. -/
inductive TxnType where
  | INCOME
  | EXPENSE
deriving DecidableEq, Repr

/-- The record produced by `normalizeRow`. -/
structure NormalizedRow where
  date : String
  amount : Rat
  type : TxnType
  description : String
  merchant : String
deriving DecidableEq, Repr

/-- `get`: resolve a mapped column by exact header match; out-of-range or
unresolved cells become `""`; the cell is trimmed. -/
def rowGet (headers row : List String) (name : String) : String :=
  match headers.findIdx? (· == name) with
  | some i => jsTrim (row.getD i "")
  | none => ""

/-- `.replace(/[$,]/g, "")`: drop every dollar sign and comma. -/
def stripMoneyChars (s : String) : String :=
  String.mk (s.data.filter (fun c => !(c == '$' || c == ',')))

/-- `.replace(/\((.*)\)/, "-$1")`: leftmost-greedy — from the first `'('`
that has some `')'` after it up to the last `')'` of the string, replace the
parentheses by a single leading minus. -/
def replaceParenNeg (s : String) : String :=
  match s.data.findIdx? (· == '(') with
  | none => s
  | some i =>
    let rest := s.data.drop (i + 1)
    match rest.reverse.findIdx? (· == ')') with
    | none => s
    | some k =>
      let q := rest.length - 1 - k
      String.mk (s.data.take i ++ '-' :: (rest.take q ++ rest.drop (q + 1)))

/-- The shared amount-parsing pipeline of every `normalizeRow` variant:
strip `$`/`,`, convert accounting parentheses to a minus, `parseFloat`,
and default `NaN` to `0`. -/
def parsedAmount (headers row : List String) (m : Mapping) : Rat :=
  (jsParseFloat (replaceParenNeg (stripMoneyChars
    (rowGet headers row m.amount)))).getD 0

/-- The shared type-resolution step: keep an upper-cased cell that is exactly
`INCOME` or `EXPENSE`, otherwise infer from the sign of the parsed amount. -/
def resolveType (rawCell : String) (amount : Rat) : TxnType :=
  let t := jsToUpper rawCell
  if t == "INCOME" then TxnType.INCOME
  else if t == "EXPENSE" then TxnType.EXPENSE
  else if amount < 0 then TxnType.EXPENSE else TxnType.INCOME

/-- `normalizeRow`, first `column-mapper.ts` variant: unconditional
`Math.abs`, then the (consequently unreachable) negative-INCOME
reconciliation branch, then `+amount.toFixed(2)`. -/
def normalizeRowCM1 (headers row : List String) (m : Mapping) : NormalizedRow :=
  let date := rowGet headers row m.date
  let amount0 := parsedAmount headers row m
  let t0 := resolveType (rowGet headers row m.type) amount0
  let description := rowGet headers row m.description
  let merchant := rowGet headers row m.merchant
  let amount1 := jsAbs amount0
  let p := if amount1 < 0 ∧ t0 = TxnType.INCOME then (jsAbs amount1, TxnType.EXPENSE)
           else (amount1, t0)
  { date := date, amount := jsToFixed2 p.1, type := p.2,
    description := description, merchant := merchant }

/-- `normalizeRow`, second `column-mapper.ts` variant: no unconditional
`Math.abs`; flip sign and type only when the amount is negative and the type
resolved to INCOME; the positive-EXPENSE `Math.abs` is a no-op kept from the
source. -/
def normalizeRowCM2 (headers row : List String) (m : Mapping) : NormalizedRow :=
  let date := rowGet headers row m.date
  let amount0 := parsedAmount headers row m
  let t0 := resolveType (rowGet headers row m.type) amount0
  let description := rowGet headers row m.description
  let merchant := rowGet headers row m.merchant
  let p := if amount0 < 0 ∧ t0 = TxnType.INCOME then (jsAbs amount0, TxnType.EXPENSE)
           else (amount0, t0)
  let amount2 := if p.1 > 0 ∧ p.2 = TxnType.EXPENSE then jsAbs p.1 else p.1
  { date := date, amount := jsToFixed2 amount2, type := p.2,
    description := description, merchant := merchant }

/-- `normalizeRow`, inlined variant of `api/import/transactions/route.ts`:
unconditional `Math.abs` at the end, no reconciliation branch, no
`toFixed`. -/
def normalizeRowRoute (headers row : List String) (m : Mapping) : NormalizedRow :=
  let date := rowGet headers row m.date
  let amount0 := parsedAmount headers row m
  let t0 := resolveType (rowGet headers row m.type) amount0
  let description := rowGet headers row m.description
  let merchant := rowGet headers row m.merchant
  { date := date, amount := jsAbs amount0, type := t0,
    description := description, merchant := merchant }

/-- The result of `guessMapping`: in TS each field is typed `string`, but on
an empty header list `headers[0]` is `undefined`, so the faithful model is an
optional header per canonical field. -/
structure GuessedMapping where
  date : Option String
  amount : Option String
  type : Option String
  description : Option String
  merchant : Option String
deriving DecidableEq, Repr

/-- One canonical field's lookup: the first header whose lower-cased, trimmed
text contains one of the field's synonyms, else the first header (JS
`headers.find(...) ?? headers[0]`). -/
def guessFind (headers : List String) (candidates : List String) : Option String :=
  match headers.find? (fun h =>
    candidates.any (fun c => jsIncludes (jsTrim (jsToLower h)) c)) with
  | some h => some h
  | none => headers.head?

/-- Synonym table `H` of the first `column-mapper.ts` variant. -/
def synDateCM1 : List String :=
  ["date", "date posted", "transaction date", "posted", "posting date", "value date"]

def synAmountCM1 : List String :=
  ["amount", "transaction amount", "amt", "debit", "credit"]

def synTypeCM1 : List String :=
  ["type", "transaction type", "dr/cr", "direction"]

def synDescriptionCM1 : List String :=
  ["description", "details", "narrative", "memo", "reference"]

def synMerchantCM1 : List String :=
  ["merchant", "payee", "name", "counterparty", "description"]

/-- Synonym table `H` of the second `column-mapper.ts` variant. -/
def synDateCM2 : List String :=
  ["date", "transaction date", "posted", "posting date", "value date"]

def synAmountCM2 : List String :=
  ["amount", "amt", "transaction amount", "debit", "credit"]

def synMerchantCM2 : List String :=
  ["merchant", "payee", "name", "counterparty"]

/-- `guessMapping`, first `column-mapper.ts` variant. -/
def guessMappingCM1 (headers : List String) : GuessedMapping :=
  { date := guessFind headers synDateCM1
    amount := guessFind headers synAmountCM1
    type := guessFind headers synTypeCM1
    description := guessFind headers synDescriptionCM1
    merchant := guessFind headers synMerchantCM1 }

/-- `guessMapping`, second `column-mapper.ts` variant (same structure,
slightly different synonym lists). -/
def guessMappingCM2 (headers : List String) : GuessedMapping :=
  { date := guessFind headers synDateCM2
    amount := guessFind headers synAmountCM2
    type := guessFind headers synTypeCM1
    description := guessFind headers synDescriptionCM1
    merchant := guessFind headers synMerchantCM2 }

/-! ## Bank-header-detecting CSV parser (`src/lib/parse-csv.ts`)

`parseCsvStrict` first runs the external `csv-parse` library; the model takes
that library's output (`records`, a list of rows of string cells) as input
and embeds everything the repository's own code does with it. -/

structure ParsedCSV where
  headers : List String
  rows : List (List String)
deriving DecidableEq, Repr

/-- The fixed header markers of `parseCsvStrict`. -/
def headerCandidates : List String :=
  ["transaction type", "date posted", "transaction amount"]

/-- A record is the header row when its lower-cased, comma-joined content
contains every marker. -/
def isHeaderRow (row : List String) : Bool :=
  headerCandidates.all (fun c => jsIncludes (jsToLower (jsJoinComma row)) c)

/-- Header extraction: an already-split row is trimmed cell-wise; a
single-cell row is split on commas.  (A matching header row is never empty,
since its comma-join contains the markers.) -/
def splitHeaderRow (row : List String) : List String :=
  if 1 < row.length then row.map jsTrim
  else (jsSplitComma (row.headD "")).map jsTrim

/-- Data-row conversion after the header: keep multi-cell rows (trimmed),
re-split a single cell that contains a comma, and skip anything else. -/
def convertDataRow (r : List String) : Option (List String) :=
  if r.isEmpty then none
  else if 1 < r.length then some (r.map jsTrim)
  else if jsIncludes (r.headD "") "," then
    some ((jsSplitComma (r.headD "")).map jsTrim)
  else none

/-- `parseCsvStrict` on the parsed record list: find the earliest header row,
discard everything before it, convert the rows after it; with no header row
(or no records) return empty headers and rows. -/
def parseCsvStrict (records : List (List String)) : ParsedCSV :=
  match records.findIdx? isHeaderRow with
  | none => { headers := [], rows := [] }
  | some i =>
    { headers := splitHeaderRow (records.getD i [])
      rows := (records.drop (i + 1)).filterMap convertDataRow }

/-! ## Rule matcher (`src/lib/rules/engine.ts`) -/

structure Merchant where
  name : String
  normalizedName : Option String
deriving DecidableEq, Repr

/-- `CandidateTxn`: the projection of a transaction used for matching. -/
structure CandidateTxn where
  description : Option String
  merchant : Option Merchant
deriving DecidableEq, Repr

/-- A stored `Rule` as seen by `applyRulesToTransaction` (`pattern` and
`categoryId` are nullable at the use sites). -/
structure EngineRule where
  id : String
  pattern : Option String
  categoryId : Option String
deriving DecidableEq, Repr

structure RuleMatch where
  ruleId : String
  categoryId : Option String
  reason : String
deriving DecidableEq, Repr

/-- The haystacks of `applyRulesToTransaction`: description, merchant name and
merchant normalized name, with empty strings filtered out, lower-cased. -/
def engineHaystacks (txn : CandidateTxn) : List String :=
  ([txn.description.getD "",
    (txn.merchant.map Merchant.name).getD "",
    (txn.merchant.bind Merchant.normalizedName).getD ""].filter
      (fun s => !(s == ""))).map jsToLower

/-- The reason string built for a matched rule. -/
def matchReason (pat : String) : String :=
  "pattern \"" ++ pat ++ "\" matched"

/-- The rule loop of `applyRulesToTransaction`: skip empty (or null)
patterns; first substring hit wins. -/
def engineFirstMatch (haystacks : List String) : List EngineRule → Option RuleMatch
  | [] => none
  | r :: rest =>
    let needle := jsToLower (r.pattern.getD "")
    if needle == "" then engineFirstMatch haystacks rest
    else if haystacks.any (fun h => jsIncludes h needle) then
      some { ruleId := r.id, categoryId := r.categoryId,
             reason := matchReason (r.pattern.getD "") }
    else engineFirstMatch haystacks rest

/-- `applyRulesToTransaction` (`src/lib/rules/engine.ts`). -/
def applyRulesToTransaction (txn : CandidateTxn) (rules : List EngineRule) :
    Option RuleMatch :=
  engineFirstMatch (engineHaystacks txn) rules

/-- Whether one rule's matcher fires on a candidate, exactly as evaluated
inside the loop of `applyRulesToTransaction`. -/
def engineRuleHits (txn : CandidateTxn) (r : EngineRule) : Bool :=
  let needle := jsToLower (r.pattern.getD "")
  !(needle == "") && (engineHaystacks txn).any (fun h => jsIncludes h needle)

/-! ## Rule matcher, route variant (`makeMatcher`, `compileRule`,
`applyRulesToBatch` in `src/app/api/import/transactions/route.ts`) -/

/-- The two kinds of matcher `makeMatcher` can build: a compiled regular
expression (body and flags), or a case-insensitive literal substring. -/
inductive CompiledPattern where
  | re (body flags : String)
  | substr (needle : String)
deriving DecidableEq, Repr

/-- JS `String.prototype.lastIndexOf('/')`. -/
def lastIdxSlash (s : String) : Option Nat :=
  match s.data.reverse.findIdx? (· == '/') with
  | none => none
  | some k => some (s.data.length - 1 - k)

/-- `makeMatcher`: only a trimmed pattern that starts with `regex:/` AND ends
with `/` is compiled as a regular expression; the text between is split at
its last internal slash into body and flags when that slash's index is
positive, else taken whole as the body with no flags.  Every other pattern
becomes a lower-cased literal substring needle. -/
def makeMatcher (pattern : String) : CompiledPattern :=
  let p := jsTrim pattern
  if jsStartsWith p "regex:/" && jsEndsWith p "/" then
    let bodyAndFlags := String.mk ((p.data.drop 7).dropLast)
    match lastIdxSlash bodyAndFlags with
    | some k =>
      if 0 < k then
        CompiledPattern.re (String.mk (bodyAndFlags.data.take k))
          (String.mk (bodyAndFlags.data.drop (k + 1)))
      else CompiledPattern.re bodyAndFlags ""
    | none => CompiledPattern.re bodyAndFlags ""
  else CompiledPattern.substr (jsToLower p)

/-- Running a compiled matcher on a field's text.  Regular-expression
evaluation is external to the repository (JS `RegExp`), so it is a parameter
`regexTest body flags text`. -/
def matcherTest (regexTest : String → String → String → Bool) :
    CompiledPattern → String → Bool
  | CompiledPattern.re b f, s => regexTest b f s
  | CompiledPattern.substr needle, s => jsIncludes (jsToLower s) needle

/-- `TxLite`, the batch variant's transaction projection. -/
structure TxLite where
  id : String
  merchant : String
  description : String
  amount : Rat
deriving DecidableEq, Repr

/-- The shape `compileRule` returns: the rule data plus a closed `matches`
predicate (`applyRulesToBatch` consumes exactly this interface; the TS
method is called `matches`, a reserved word in Lean). -/
structure CompiledRule where
  id : String
  categoryId : Option String
  matchesTx : TxLite → Bool

/-- One element of `applyRulesToBatch`'s result. -/
structure BatchOutcome where
  txId : String
  categoryId : Option String
  matchedRuleId : Option String
deriving DecidableEq, Repr

/-- JS `a ?? b` on nullable values. -/
def jsCoalesce (a b : Option String) : Option String :=
  match a with
  | some x => some x
  | none => b

/-- The per-transaction loop inside `applyRulesToBatch`. -/
def batchFirstMatch (rules : List CompiledRule) (tx : TxLite)
    (defaultCategoryId : Option String) : BatchOutcome :=
  match rules with
  | [] => { txId := tx.id, categoryId := defaultCategoryId, matchedRuleId := none }
  | r :: rest =>
    if r.matchesTx tx then
      { txId := tx.id, categoryId := jsCoalesce r.categoryId defaultCategoryId,
        matchedRuleId := some r.id }
    else batchFirstMatch rest tx defaultCategoryId

/-- `applyRulesToBatch` (`src/app/api/import/transactions/route.ts`). -/
def applyRulesToBatch (rules : List CompiledRule) (txs : List TxLite)
    (defaultCategoryId : Option String) : List BatchOutcome :=
  txs.map (fun tx => batchFirstMatch rules tx defaultCategoryId)

/-! ## Helper lemmas -/

theorem jsAbs_nonneg (q : Rat) : 0 ≤ jsAbs q := by
  unfold jsAbs
  split
  · linarith
  · linarith

theorem jsAbs_of_not_neg {q : Rat} (h : ¬ q < 0) : jsAbs q = q := by
  simp [jsAbs, h]

theorem hasPre_self_append (l r : List Char) : hasPre l (l ++ r) = true := by
  induction l with
  | nil => rfl
  | cons a as ih => simp [hasPre, ih]

theorem hasSub_append_mid (a n b : List Char) : hasSub n (a ++ (n ++ b)) = true := by
  induction a with
  | nil =>
    cases n with
    | nil => cases b <;> simp [hasSub, hasPre]
    | cons c cs =>
      simp only [List.nil_append, hasSub, Bool.or_eq_true]
      exact Or.inl (hasPre_self_append (c :: cs) b)
  | cons x xs ih => simp [hasSub, ih]

theorem rowGet_not_mem {headers : List String} {name : String}
    (h : name ∉ headers) (row : List String) : rowGet headers row name = "" := by
  unfold rowGet
  have : headers.findIdx? (· == name) = none := by
    rw [List.findIdx?_eq_none_iff]
    intro x hx
    simp only [beq_eq_false_iff_ne, ne_eq]
    rintro rfl
    exact h hx
  rw [this]

theorem findIdx?_eq_of_first {α : Type} (p : α → Bool) :
    ∀ (l : List α) (i acc : Nat) (x : α), l[i]? = some x → p x = true →
      (∀ j, j < i → ∀ y, l[j]? = some y → p y = false) →
      l.findIdx? p acc = some (acc + i) := by
  intro l
  induction l with
  | nil => intro i acc x hx; simp at hx
  | cons a t ih =>
    intro i acc x hx hp hbefore
    cases i with
    | zero =>
      rw [List.getElem?_cons_zero, Option.some_inj] at hx
      subst hx
      simp [List.findIdx?_cons, hp]
    | succ j =>
      have ha : p a = false := hbefore 0 (Nat.succ_pos j) a List.getElem?_cons_zero
      rw [List.getElem?_cons_succ] at hx
      rw [List.findIdx?_cons, if_neg (by simp [ha])]
      have := ih j (acc + 1) x hx hp (fun k hk y hy =>
        hbefore (k + 1) (Nat.succ_lt_succ hk) y (by rwa [List.getElem?_cons_succ]))
      rw [this]
      congr 1
      omega

/-- Unfolding lemma: one step of the rule loop, with the skip and hit
conditions packaged as the Boolean `engineRuleHits` tests. -/
theorem engineFirstMatch_cons (H : List String) (r : EngineRule)
    (rest : List EngineRule) :
    engineFirstMatch H (r :: rest) =
      if (!(jsToLower (r.pattern.getD "") == "") &&
          H.any fun hy => jsIncludes hy (jsToLower (r.pattern.getD ""))) = true then
        some { ruleId := r.id, categoryId := r.categoryId,
               reason := matchReason (r.pattern.getD "") }
      else engineFirstMatch H rest := by
  simp only [engineFirstMatch]
  cases hne : (jsToLower (r.pattern.getD "") == "") with
  | true => simp
  | false =>
    cases hany : (H.any fun hy => jsIncludes hy (jsToLower (r.pattern.getD ""))) with
    | true => simp
    | false => simp

theorem engineRuleHits_eq (txn : CandidateTxn) (r : EngineRule) :
    engineRuleHits txn r =
      (!(jsToLower (r.pattern.getD "") == "") &&
        (engineHaystacks txn).any fun hy => jsIncludes hy (jsToLower (r.pattern.getD ""))) :=
  rfl

theorem engineFirstMatch_all_miss (H : List String) :
    ∀ rules : List EngineRule,
      (∀ r ∈ rules, (!(jsToLower (r.pattern.getD "") == "") &&
        H.any fun hy => jsIncludes hy (jsToLower (r.pattern.getD ""))) = false) →
      engineFirstMatch H rules = none := by
  intro rules
  induction rules with
  | nil => intro _; rfl
  | cons r rest ih =>
    intro h
    rw [engineFirstMatch_cons, if_neg (by simp [h r (List.mem_cons_self r rest)])]
    exact ih (fun r' hr' => h r' (List.mem_cons_of_mem r hr'))

/-- Claim C1: for every candidate transaction and rule list, the first rule
(in supplied order) whose matcher fires wins: the result is exactly that
rule's id and (possibly null) categoryId with a reason string that embeds the
matched pattern, and the rules after it (`post`) are universally quantified,
so no later rule influences the result. -/
theorem applyRulesToTransaction_first_match_wins
    (txn : CandidateTxn) (pre : List EngineRule) (r : EngineRule)
    (post : List EngineRule)
    (hpre : ∀ r' ∈ pre, engineRuleHits txn r' = false)
    (hr : engineRuleHits txn r = true) :
    applyRulesToTransaction txn (pre ++ r :: post) =
      some { ruleId := r.id, categoryId := r.categoryId,
             reason := matchReason (r.pattern.getD "") } ∧
    hasSub (r.pattern.getD "").data (matchReason (r.pattern.getD "")).data = true := by
  constructor
  · unfold applyRulesToTransaction
    induction pre with
    | nil =>
      rw [List.nil_append, engineFirstMatch_cons,
        if_pos (by rw [← engineRuleHits_eq]; exact hr)]
    | cons p0 pre' ih =>
      have h0 := hpre p0 (List.mem_cons_self p0 pre')
      rw [engineRuleHits_eq] at h0
      rw [List.cons_append, engineFirstMatch_cons, if_neg (by simp [h0])]
      exact ih (fun r' hr' => hpre r' (List.mem_cons_of_mem p0 hr'))
  · have hdata : (matchReason (r.pattern.getD "")).data =
        "pattern \"".data ++ ((r.pattern.getD "").data ++ "\" matched".data) := by
      simp [matchReason, String.data_append]
    rw [hdata]
    exact hasSub_append_mid _ _ _

/-- Witness for C1 at concrete inputs (a non-matching earlier rule, a
case-insensitively matching rule, and a later rule that would also match). -/
theorem applyRulesToTransaction_first_match_wins_witness :
    (∀ r' ∈ [EngineRule.mk "r0" (some "zzz") none],
      engineRuleHits ⟨some "WALMART STORE", none⟩ r' = false) ∧
    engineRuleHits ⟨some "WALMART STORE", none⟩
      (EngineRule.mk "r1" (some "Walmart") (some "c1")) = true ∧
    (applyRulesToTransaction ⟨some "WALMART STORE", none⟩
        ([EngineRule.mk "r0" (some "zzz") none] ++
          EngineRule.mk "r1" (some "Walmart") (some "c1") ::
            [EngineRule.mk "r2" (some "store") none]) =
      some { ruleId := "r1", categoryId := some "c1",
             reason := matchReason "Walmart" } ∧
    hasSub "Walmart".data (matchReason "Walmart").data = true) :=
  ⟨by decide, by decide,
    applyRulesToTransaction_first_match_wins _ _ _ _ (by decide) (by decide)⟩

/-- Claim C10: a rule whose pattern is null or empty is skipped by
`applyRulesToTransaction` — deleting it from the list, at any position,
never changes the result, for every candidate transaction. -/
theorem applyRulesToTransaction_skips_empty_pattern
    (txn : CandidateTxn) (pre post : List EngineRule) (r : EngineRule)
    (hemp : r.pattern = none ∨ r.pattern = some "") :
    applyRulesToTransaction txn (pre ++ r :: post) =
      applyRulesToTransaction txn (pre ++ post) := by
  unfold applyRulesToTransaction
  induction pre with
  | nil =>
    rw [List.nil_append, List.nil_append, engineFirstMatch_cons]
    have hgetD : r.pattern.getD "" = "" := by
      rcases hemp with h | h <;> rw [h] <;> rfl
    have h1 : (jsToLower (r.pattern.getD "") == "") = true := by
      rw [hgetD]; decide
    rw [if_neg (by simp [h1])]
  | cons p0 pre' ih =>
    rw [List.cons_append, List.cons_append, engineFirstMatch_cons,
      engineFirstMatch_cons]
    split
    · rfl
    · exact ih

/-- Witness for C10: an empty-pattern rule sits in front of a matching rule
and does not capture the match. -/
theorem applyRulesToTransaction_skips_empty_pattern_witness :
    ((EngineRule.mk "r0" (some "") (some "c0")).pattern = none ∨
      (EngineRule.mk "r0" (some "") (some "c0")).pattern = some "") ∧
    applyRulesToTransaction ⟨some "abc", none⟩
        ([] ++ EngineRule.mk "r0" (some "") (some "c0") ::
          [EngineRule.mk "r2" (some "b") (some "c2")]) =
      applyRulesToTransaction ⟨some "abc", none⟩
        ([] ++ [EngineRule.mk "r2" (some "b") (some "c2")]) :=
  ⟨Or.inr rfl,
    applyRulesToTransaction_skips_empty_pattern _ _ _ _ (Or.inr rfl)⟩

/-- The per-transaction batch loop leaves `txId` untouched. -/
theorem batchFirstMatch_txId (rules : List CompiledRule) (tx : TxLite)
    (d : Option String) : (batchFirstMatch rules tx d).txId = tx.id := by
  induction rules with
  | nil => rfl
  | cons r rest ih =>
    simp only [batchFirstMatch]
    split
    · rfl
    · exact ih

/-- The per-transaction batch loop falls through to the default outcome when
no compiled rule matches. -/
theorem batchFirstMatch_all_miss (rules : List CompiledRule) (tx : TxLite)
    (d : Option String) (h : ∀ cr ∈ rules, cr.matchesTx tx = false) :
    batchFirstMatch rules tx d = { txId := tx.id, categoryId := d, matchedRuleId := none } := by
  induction rules with
  | nil => rfl
  | cons r rest ih =>
    simp only [batchFirstMatch]
    rw [if_neg (by simp [h r (List.mem_cons_self r rest)])]
    exact ih (fun cr hcr => h cr (List.mem_cons_of_mem r hcr))

/-- A batch outcome's category is null only when the caller's default is. -/
theorem batchFirstMatch_categoryId_none (rules : List CompiledRule)
    (tx : TxLite) (d : Option String)
    (h : (batchFirstMatch rules tx d).categoryId = none) : d = none := by
  induction rules with
  | nil => exact h
  | cons r rest ih =>
    simp only [batchFirstMatch] at h
    by_cases hm : r.matchesTx tx = true
    · rw [if_pos hm] at h
      simp only at h
      cases hcat : r.categoryId with
      | some c => rw [hcat] at h; exact absurd h (by simp [jsCoalesce])
      | none => rw [hcat] at h; exact h
    · rw [if_neg hm] at h
      exact ih h

/-- Claim C7: a candidate matching no rule yields `null` from
`applyRulesToTransaction`; in `applyRulesToBatch` such a transaction's
outcome carries the caller-supplied default category id; and a null category
appears in the batch output only when the caller's default itself is null. -/
theorem applyRules_no_match_default :
    (∀ (txn : CandidateTxn) (rules : List EngineRule),
      (∀ r ∈ rules, engineRuleHits txn r = false) →
      applyRulesToTransaction txn rules = none) ∧
    (∀ (rules : List CompiledRule) (txs : List TxLite) (d : Option String)
        (i : Nat) (tx : TxLite), txs[i]? = some tx →
      (∀ cr ∈ rules, cr.matchesTx tx = false) →
      (applyRulesToBatch rules txs d)[i]? =
        some { txId := tx.id, categoryId := d, matchedRuleId := none }) ∧
    (∀ (rules : List CompiledRule) (txs : List TxLite) (d : Option String)
        (out : BatchOutcome), out ∈ applyRulesToBatch rules txs d →
      out.categoryId = none → d = none) := by
  refine ⟨?_, ?_, ?_⟩
  · intro txn rules h
    unfold applyRulesToTransaction
    exact engineFirstMatch_all_miss _ rules
      (fun r hr => by rw [← engineRuleHits_eq]; exact h r hr)
  · intro rules txs d i tx hi h
    unfold applyRulesToBatch
    rw [List.getElem?_map, hi, Option.map_some']
    rw [batchFirstMatch_all_miss rules tx d h]
  · intro rules txs d out hout hnone
    unfold applyRulesToBatch at hout
    rcases List.mem_map.mp hout with ⟨tx, _, rfl⟩
    exact batchFirstMatch_categoryId_none rules tx d hnone

/-- Witness for C7 at concrete inputs. -/
theorem applyRules_no_match_default_witness :
    ((∀ r ∈ [EngineRule.mk "r1" (some "zz") (some "c1")],
        engineRuleHits ⟨some "abc", none⟩ r = false) ∧
      applyRulesToTransaction ⟨some "abc", none⟩
        [EngineRule.mk "r1" (some "zz") (some "c1")] = none) ∧
    ((TxLite.mk "t1" "m" "d" 0 :: [])[0]? = some (TxLite.mk "t1" "m" "d" 0) ∧
      (applyRulesToBatch [] [TxLite.mk "t1" "m" "d" 0] (some "def"))[0]? =
        some { txId := "t1", categoryId := some "def", matchedRuleId := none }) := by
  refine ⟨⟨by decide, ?_⟩, ⟨rfl, ?_⟩⟩
  · exact applyRules_no_match_default.1 _ _ (by decide)
  · exact applyRules_no_match_default.2.1 [] [TxLite.mk "t1" "m" "d" 0]
      (some "def") 0 (TxLite.mk "t1" "m" "d" 0) rfl (by simp)

/-- Closed form of the first `normalizeRow` variant: the reconciliation
branch sits after `Math.abs`, so it never fires and the resolved type is
returned unchanged. -/
theorem normalizeRowCM1_eq (headers row : List String) (m : Mapping) :
    normalizeRowCM1 headers row m =
      { date := rowGet headers row m.date
        amount := jsToFixed2 (jsAbs (parsedAmount headers row m))
        type := resolveType (rowGet headers row m.type) (parsedAmount headers row m)
        description := rowGet headers row m.description
        merchant := rowGet headers row m.merchant } := by
  have hno : ¬ (jsAbs (parsedAmount headers row m) < 0 ∧
      resolveType (rowGet headers row m.type) (parsedAmount headers row m) =
        TxnType.INCOME) :=
    fun hc => absurd hc.1 (not_lt.mpr (jsAbs_nonneg _))
  simp only [normalizeRowCM1, if_neg hno]

/-- Closed form of the second `normalizeRow` variant: the type is forced to
EXPENSE (and the amount to its absolute value) exactly when the parsed
amount is negative and the type resolved to INCOME; otherwise the signed
parsed amount is kept. -/
theorem normalizeRowCM2_eq (headers row : List String) (m : Mapping) :
    normalizeRowCM2 headers row m =
      { date := rowGet headers row m.date
        amount := jsToFixed2
          (if parsedAmount headers row m < 0 ∧
              resolveType (rowGet headers row m.type) (parsedAmount headers row m) =
                TxnType.INCOME
           then jsAbs (parsedAmount headers row m)
           else parsedAmount headers row m)
        type := if parsedAmount headers row m < 0 ∧
              resolveType (rowGet headers row m.type) (parsedAmount headers row m) =
                TxnType.INCOME
           then TxnType.EXPENSE
           else resolveType (rowGet headers row m.type) (parsedAmount headers row m)
        description := rowGet headers row m.description
        merchant := rowGet headers row m.merchant } := by
  by_cases hc : parsedAmount headers row m < 0 ∧
      resolveType (rowGet headers row m.type) (parsedAmount headers row m) =
        TxnType.INCOME
  · have hpos : 0 < jsAbs (parsedAmount headers row m) := by
      unfold jsAbs
      rw [if_pos hc.1]
      linarith [hc.1]
    simp only [normalizeRowCM2, if_pos hc]
    rw [if_pos ⟨hpos, trivial⟩, jsAbs_of_not_neg (not_lt.mpr (jsAbs_nonneg _))]
  · simp only [normalizeRowCM2, if_neg hc]
    by_cases hp : parsedAmount headers row m > 0 ∧
        resolveType (rowGet headers row m.type) (parsedAmount headers row m) =
          TxnType.EXPENSE
    · rw [if_pos hp, jsAbs_of_not_neg (not_lt.mpr (le_of_lt hp.1))]
    · rw [if_neg hp]

/-- Closed form of the route variant: unconditional `Math.abs`, no rounding,
no reconciliation. -/
theorem normalizeRowRoute_eq (headers row : List String) (m : Mapping) :
    normalizeRowRoute headers row m =
      { date := rowGet headers row m.date
        amount := jsAbs (parsedAmount headers row m)
        type := resolveType (rowGet headers row m.type) (parsedAmount headers row m)
        description := rowGet headers row m.description
        merchant := rowGet headers row m.merchant } := rfl

/-- Claim C2 (amended): for every input, the first `column-mapper.ts`
variant returns the 2-decimal rounding of the absolute parsed amount but the
resolved type unchanged (its reconciliation branch is dead code after
`Math.abs`, so a negative amount with an explicit INCOME type cell stays
INCOME); the second variant forces EXPENSE with the rounded absolute value
exactly when the parsed amount is negative and the type resolved INCOME, and
otherwise returns the rounded *signed* amount; the route variant returns the
unrounded absolute value and the resolved type unchanged. -/
theorem normalizeRow_variant_characterization
    (headers row : List String) (m : Mapping) :
    (normalizeRowCM1 headers row m).amount
      = jsToFixed2 (jsAbs (parsedAmount headers row m)) ∧
    (normalizeRowCM1 headers row m).type
      = resolveType (rowGet headers row m.type) (parsedAmount headers row m) ∧
    (normalizeRowCM2 headers row m).type
      = (if parsedAmount headers row m < 0 ∧
            resolveType (rowGet headers row m.type) (parsedAmount headers row m) =
              TxnType.INCOME
         then TxnType.EXPENSE
         else resolveType (rowGet headers row m.type) (parsedAmount headers row m)) ∧
    (normalizeRowCM2 headers row m).amount
      = jsToFixed2 (if parsedAmount headers row m < 0 ∧
            resolveType (rowGet headers row m.type) (parsedAmount headers row m) =
              TxnType.INCOME
          then jsAbs (parsedAmount headers row m)
          else parsedAmount headers row m) ∧
    (normalizeRowRoute headers row m).amount = jsAbs (parsedAmount headers row m) ∧
    (normalizeRowRoute headers row m).type
      = resolveType (rowGet headers row m.type) (parsedAmount headers row m) := by
  rw [normalizeRowCM1_eq, normalizeRowCM2_eq, normalizeRowRoute_eq]
  exact ⟨rfl, rfl, rfl, rfl, rfl, rfl⟩

/-- Counterexample to claim C2 as stated: (1) the first variant returns
type INCOME for the negative amount `-50` with an explicit INCOME type cell;
(2) the second variant returns the *negative* amount `-50` (not its absolute
value) when the type cell says EXPENSE; (3) the route variant returns the
unrounded amount `1.005`, which is not equal to its own 2-decimal
rounding `1.01`. -/
theorem normalizeRow_claim_counterexample :
    (normalizeRowCM1 ["a", "t"] ["-50", "INCOME"]
      (Mapping.mk "bk" "a" "a" "t" "a" "a")).type = TxnType.INCOME ∧
    (normalizeRowCM2 ["a", "t"] ["-50", "EXPENSE"]
      (Mapping.mk "bk" "a" "a" "t" "a" "a")).amount = -50 ∧
    (normalizeRowRoute ["a"] ["1.005"]
      (Mapping.mk "bk" "a" "a" "a" "a" "a")).amount = Rat.divInt 1005 1000 ∧
    jsToFixed2 (Rat.divInt 1005 1000) = Rat.divInt 101 100 := by decide

/-- Claim C5: `normalizeRow` (both `column-mapper.ts` variants) is total by
construction — the embedded functions return a `NormalizedRow` on every
input — and on unresolved columns or unparseable amount text it falls back
to deterministic defaults: an unresolved column yields `""` for its field
and an unparseable amount yields `0`. -/
theorem normalizeRow_unresolved_defaults
    (headers row : List String) (m : Mapping)
    (hd : m.date ∉ headers) (hdesc : m.description ∉ headers)
    (hmer : m.merchant ∉ headers)
    (hamt : jsParseFloat (replaceParenNeg (stripMoneyChars
      (rowGet headers row m.amount))) = none) :
    ((normalizeRowCM1 headers row m).date = "" ∧
      (normalizeRowCM1 headers row m).description = "" ∧
      (normalizeRowCM1 headers row m).merchant = "" ∧
      (normalizeRowCM1 headers row m).amount = 0) ∧
    ((normalizeRowCM2 headers row m).date = "" ∧
      (normalizeRowCM2 headers row m).description = "" ∧
      (normalizeRowCM2 headers row m).merchant = "" ∧
      (normalizeRowCM2 headers row m).amount = 0) := by
  have hzero : parsedAmount headers row m = 0 := by
    unfold parsedAmount
    rw [hamt]
    rfl
  have habs : jsAbs (0 : Rat) = 0 := by decide
  have hfix : jsToFixed2 (0 : Rat) = 0 := by decide
  have hnneg : ¬ ((0 : Rat) < 0 ∧
      resolveType (rowGet headers row m.type) (parsedAmount headers row m) =
        TxnType.INCOME) := fun hc => absurd hc.1 (lt_irrefl 0)
  constructor
  · rw [normalizeRowCM1_eq]
    refine ⟨rowGet_not_mem hd row, rowGet_not_mem hdesc row,
      rowGet_not_mem hmer row, ?_⟩
    rw [hzero] at hnneg ⊢
    rw [habs, hfix]
  · rw [normalizeRowCM2_eq]
    refine ⟨rowGet_not_mem hd row, rowGet_not_mem hdesc row,
      rowGet_not_mem hmer row, ?_⟩
    rw [hzero] at hnneg ⊢
    rw [if_neg hnneg, hfix]

/-- Witness for C5: a mapping none of whose date/description/merchant
headers occur in the CSV, and a garbage amount cell. -/
theorem normalizeRow_unresolved_defaults_witness :
    ("d" ∉ ["x"] ∧ "de" ∉ ["x"] ∧ "me" ∉ ["x"] ∧
      jsParseFloat (replaceParenNeg (stripMoneyChars
        (rowGet ["x"] ["junk"] "a"))) = none) ∧
    (((normalizeRowCM1 ["x"] ["junk"] (Mapping.mk "bk" "d" "a" "t" "de" "me")).date = "" ∧
      (normalizeRowCM1 ["x"] ["junk"] (Mapping.mk "bk" "d" "a" "t" "de" "me")).description = "" ∧
      (normalizeRowCM1 ["x"] ["junk"] (Mapping.mk "bk" "d" "a" "t" "de" "me")).merchant = "" ∧
      (normalizeRowCM1 ["x"] ["junk"] (Mapping.mk "bk" "d" "a" "t" "de" "me")).amount = 0) ∧
    ((normalizeRowCM2 ["x"] ["junk"] (Mapping.mk "bk" "d" "a" "t" "de" "me")).date = "" ∧
      (normalizeRowCM2 ["x"] ["junk"] (Mapping.mk "bk" "d" "a" "t" "de" "me")).description = "" ∧
      (normalizeRowCM2 ["x"] ["junk"] (Mapping.mk "bk" "d" "a" "t" "de" "me")).merchant = "" ∧
      (normalizeRowCM2 ["x"] ["junk"] (Mapping.mk "bk" "d" "a" "t" "de" "me")).amount = 0)) :=
  ⟨⟨by decide, by decide, by decide, by decide⟩,
    normalizeRow_unresolved_defaults ["x"] ["junk"]
      (Mapping.mk "bk" "d" "a" "t" "de" "me")
      (by decide) (by decide) (by decide) (by decide)⟩

/-- Claim C8: `"$1,234.56"` normalizes to amount `1234.56`, and `"(50.00)"`
(with no recognized type-column value) normalizes to amount `50.00` with
type EXPENSE, in both cited `normalizeRow` variants (`column-mapper.ts`
first variant and the route copy). -/
theorem normalizeRow_amount_parsing_examples :
    (normalizeRowCM1 ["Amt"] ["$1,234.56"]
      (Mapping.mk "bk" "Amt" "Amt" "Amt" "Amt" "Amt")).amount = Rat.divInt 123456 100 ∧
    (normalizeRowRoute ["Amt"] ["$1,234.56"]
      (Mapping.mk "bk" "Amt" "Amt" "Amt" "Amt" "Amt")).amount = Rat.divInt 123456 100 ∧
    (normalizeRowCM1 ["Amt"] ["(50.00)"]
      (Mapping.mk "bk" "Amt" "Amt" "Amt" "Amt" "Amt")).amount = 50 ∧
    (normalizeRowCM1 ["Amt"] ["(50.00)"]
      (Mapping.mk "bk" "Amt" "Amt" "Amt" "Amt" "Amt")).type = TxnType.EXPENSE ∧
    (normalizeRowRoute ["Amt"] ["(50.00)"]
      (Mapping.mk "bk" "Amt" "Amt" "Amt" "Amt" "Amt")).amount = 50 ∧
    (normalizeRowRoute ["Amt"] ["(50.00)"]
      (Mapping.mk "bk" "Amt" "Amt" "Amt" "Amt" "Amt")).type = TxnType.EXPENSE := by
  decide

/-- Claim C9: `applyRulesToBatch` returns exactly one outcome per input
transaction, in input order (the outcome at index `i` belongs to the
transaction at index `i`); the rule list and transaction list are only read
(the embedding of `txs.map(...)` is a pure function of its arguments). -/
theorem applyRulesToBatch_one_outcome_per_input
    (rules : List CompiledRule) (txs : List TxLite) (d : Option String) :
    (applyRulesToBatch rules txs d).length = txs.length ∧
    (∀ (i : Nat) (tx : TxLite), txs[i]? = some tx →
      ∃ out, (applyRulesToBatch rules txs d)[i]? = some out ∧ out.txId = tx.id) := by
  constructor
  · unfold applyRulesToBatch
    exact List.length_map txs _
  · intro i tx hi
    unfold applyRulesToBatch
    refine ⟨batchFirstMatch rules tx d, ?_, batchFirstMatch_txId rules tx d⟩
    rw [List.getElem?_map, hi, Option.map_some']

/-- Witness for C9 at a concrete rule list and transaction list. -/
theorem applyRulesToBatch_one_outcome_per_input_witness :
    ((applyRulesToBatch [] [TxLite.mk "t1" "m" "d" 0, TxLite.mk "t2" "m" "d" 0]
        none).length = 2 ∧
      ([TxLite.mk "t1" "m" "d" 0, TxLite.mk "t2" "m" "d" 0][1]? =
        some (TxLite.mk "t2" "m" "d" 0) ∧
      ∃ out, (applyRulesToBatch [] [TxLite.mk "t1" "m" "d" 0, TxLite.mk "t2" "m" "d" 0]
        none)[1]? = some out ∧ out.txId = "t2")) := by
  refine ⟨(applyRulesToBatch_one_outcome_per_input [] _ none).1, rfl, ?_⟩
  exact (applyRulesToBatch_one_outcome_per_input [] _ none).2 1
    (TxLite.mk "t2" "m" "d" 0) rfl

/-- Claim C3 evaluation: the documented pattern shape `regex:/<body>/<flags>`
with non-empty flags does NOT compile as a regular expression — because the
trimmed pattern then ends in the flag letters, not in `/`, `makeMatcher`
falls through to the case-insensitive literal-substring branch.  The matcher
built from `regex:/WALMART|COSTCO/i` therefore rejects the text `WALMART`
no matter how regular expressions themselves are evaluated, while only the
undocumented shape with a trailing slash (`regex:/WALMART|COSTCO/i/`)
produces body `WALMART|COSTCO` with flags `i`. -/
theorem makeMatcher_flagged_shape_is_substring :
    makeMatcher "regex:/WALMART|COSTCO/i" =
      CompiledPattern.substr "regex:/walmart|costco/i" ∧
    matcherTest (fun _ _ _ => true)
      (makeMatcher "regex:/WALMART|COSTCO/i") "WALMART" = false ∧
    makeMatcher "regex:/WALMART|COSTCO/i/" =
      CompiledPattern.re "WALMART|COSTCO" "i" ∧
    makeMatcher "regex:/WALMART|COSTCO/" =
      CompiledPattern.re "WALMART|COSTCO" "" := by decide

/-- The per-field lookup of `guessMapping` always assigns some element of a
non-empty header list. -/
theorem guessFind_mem (headers cands : List String) (hne : headers ≠ []) :
    ∃ h ∈ headers, guessFind headers cands = some h := by
  unfold guessFind
  cases hf : headers.find? (fun h =>
      cands.any fun c => jsIncludes (jsTrim (jsToLower h)) c) with
  | some h => exact ⟨h, List.mem_of_find?_eq_some hf, rfl⟩
  | none =>
    cases headers with
    | nil => exact absurd rfl hne
    | cons a t => exact ⟨a, List.mem_cons_self a t, rfl⟩

/-- Claim C4 (amended): for every NON-EMPTY header list, both `guessMapping`
variants assign to each of the five canonical fields some header from the
list (the first synonym hit, else the first header) — no field is left
unresolved, though the assigned header may itself be the empty string, and
on an empty header list every field is `undefined`. -/
theorem guessMapping_assigns_member (headers : List String) (hne : headers ≠ []) :
    ∀ g ∈ [guessMappingCM1 headers, guessMappingCM2 headers],
      (∃ h ∈ headers, g.date = some h) ∧
      (∃ h ∈ headers, g.amount = some h) ∧
      (∃ h ∈ headers, g.type = some h) ∧
      (∃ h ∈ headers, g.description = some h) ∧
      (∃ h ∈ headers, g.merchant = some h) := by
  intro g hg
  rcases List.mem_cons.mp hg with rfl | hg'
  · exact ⟨guessFind_mem headers synDateCM1 hne,
      guessFind_mem headers synAmountCM1 hne,
      guessFind_mem headers synTypeCM1 hne,
      guessFind_mem headers synDescriptionCM1 hne,
      guessFind_mem headers synMerchantCM1 hne⟩
  · rcases List.mem_cons.mp hg' with rfl | hg''
    · exact ⟨guessFind_mem headers synDateCM2 hne,
        guessFind_mem headers synAmountCM2 hne,
        guessFind_mem headers synTypeCM1 hne,
        guessFind_mem headers synDescriptionCM1 hne,
        guessFind_mem headers synMerchantCM2 hne⟩
    · exact absurd hg'' (List.not_mem_nil g)

/-- Witness for C4 at a concrete header list. -/
theorem guessMapping_assigns_member_witness :
    (["Date", "Amount"] ≠ ([] : List String)) ∧
    (∀ g ∈ [guessMappingCM1 ["Date", "Amount"], guessMappingCM2 ["Date", "Amount"]],
      (∃ h ∈ ["Date", "Amount"], g.date = some h) ∧
      (∃ h ∈ ["Date", "Amount"], g.amount = some h) ∧
      (∃ h ∈ ["Date", "Amount"], g.type = some h) ∧
      (∃ h ∈ ["Date", "Amount"], g.description = some h) ∧
      (∃ h ∈ ["Date", "Amount"], g.merchant = some h)) :=
  ⟨by decide, guessMapping_assigns_member ["Date", "Amount"] (by decide)⟩

/-- Counterexample to claim C4 as stated: with the single header `""` (and
on both variants), every canonical field is assigned the EMPTY header
string, so `guessMapping` does not always return a non-empty header. -/
theorem guessMapping_empty_header_counterexample :
    (guessMappingCM1 [""]).date = some "" ∧
    (guessMappingCM2 [""]).date = some "" ∧
    (guessMappingCM1 [""]).amount = some "" := by decide

/-- Claim C6 (amended): `parseCsvStrict` selects the EARLIEST record whose
lower-cased comma-joined content contains all three fixed header markers as
the header row, discards every record before it, and converts the records
after it through `convertDataRow` — which keeps multi-cell rows (trimmed),
re-splits a single cell containing a comma, and SKIPS single-cell rows
without a comma; with no such header row (including zero records) it returns
empty headers and empty rows rather than an error. -/
theorem parseCsvStrict_header_selection :
    (∀ (records : List (List String)) (i : Nat) (hrow : List String),
      records[i]? = some hrow → isHeaderRow hrow = true →
      (∀ j, j < i → ∀ rj, records[j]? = some rj → isHeaderRow rj = false) →
      parseCsvStrict records =
        { headers := splitHeaderRow hrow
          rows := (records.drop (i + 1)).filterMap convertDataRow }) ∧
    (∀ records : List (List String),
      (∀ row ∈ records, isHeaderRow row = false) →
      parseCsvStrict records = { headers := [], rows := [] }) := by
  constructor
  · intro records i hrow hi hhead hbefore
    unfold parseCsvStrict
    have hfind := findIdx?_eq_of_first isHeaderRow records i 0 hrow hi hhead hbefore
    rw [Nat.zero_add] at hfind
    rw [hfind]
    have hgetD : records.getD i [] = hrow := by
      rw [List.getD_eq_getElem?_getD, hi]
      rfl
    simp only [hgetD]
  · intro records hmiss
    unfold parseCsvStrict
    rw [List.findIdx?_eq_none_iff.mpr hmiss]

/-- Witness for C6: a junk record precedes the marker row; the rows after it
are returned (converted), the junk before it is discarded; and a record list
with no marker row yields empty output. -/
theorem parseCsvStrict_header_selection_witness :
    parseCsvStrict [["junk"],
        ["Transaction Type", "Date Posted", "Transaction Amount"],
        ["a", "b", "c"]] =
      { headers := ["Transaction Type", "Date Posted", "Transaction Amount"]
        rows := [["a", "b", "c"]] } ∧
    parseCsvStrict [["junk"]] = { headers := [], rows := [] } := by
  constructor
  · refine (parseCsvStrict_header_selection.1 _ 1
      ["Transaction Type", "Date Posted", "Transaction Amount"]
      rfl (by decide) ?_).trans (by decide)
    intro j hj rj hrj
    have hj0 : j = 0 := Nat.lt_one_iff.mp hj
    subst hj0
    rw [List.getElem?_cons_zero, Option.some_inj] at hrj
    subst hrj
    decide
  · exact parseCsvStrict_header_selection.2 _ (by decide)

/-- Counterexample to claim C6 as stated: a single-cell record without a
comma follows the header row, yet the returned data rows are empty — not
"all following rows". -/
theorem parseCsvStrict_drops_commaless_single_cell :
    parseCsvStrict [["Transaction Type", "Date Posted", "Transaction Amount"],
        ["x"]] =
      { headers := ["Transaction Type", "Date Posted", "Transaction Amount"]
        rows := [] } := by decide
